import Mathlib

/-!
Verification of the chart-val diff orchestrator, configuration resolver,
configuration index and webhook dispatcher.

The Go sources are shallowly embedded: external collaborators (the source
control fetcher, the Helm renderer, the two diff strategies, the GitHub
comment API) become explicit function parameters, byte slices become
`String`s, Go errors become `Except String` values, and Go maps become
association lists.  Each definition mirrors one Go function and carries a
doc comment naming it.
-/

namespace ChartVal

/-- `domain.Status` (`internal/diff/domain/diff_result.go`):
`StatusSuccess` (no changes), `StatusChanges`, `StatusError`. -/
inductive Status
  | success
  | changes
  | error
deriving DecidableEq, Repr

/-- `domain.EnvironmentConfig`: environment name, ordered value-file list and
the optional message used for environments with no value files. -/
structure EnvironmentConfig where
  name : String
  valueFiles : List String
  message : String
deriving DecidableEq, Repr

/-- `domain.ChartConfig`: chart path plus its environments. -/
structure ChartConfig where
  path : String
  environments : List EnvironmentConfig
deriving DecidableEq, Repr

/-- `domain.ChangedChart`: chart name and repository-relative path. -/
structure ChangedChart where
  name : String
  path : String
deriving DecidableEq, Repr

/-- `domain.PRContext`: pull-request descriptor threaded through the run. -/
structure PRContext where
  owner : String
  repo : String
  prNumber : Nat
  baseRef : String
  headRef : String
  headSHA : String
deriving DecidableEq, Repr

/-- `domain.DiffResult`: one chart/environment diff outcome (field order as in
the Go struct). -/
structure DiffResult where
  chartName : String
  environment : String
  baseRef : String
  headRef : String
  status : Status
  unifiedDiff : String
  semanticDiff : String
  summary : String
deriving DecidableEq, Repr

/-- `const noChangesMessage` in `internal/diff/app/service.go`. -/
def noChangesMessage : String := "No changes detected."

/-- `domain.DiffLabel`: identifier for a diff comparison,
for example my-app/prod (main). -/
def diffLabel (chartName envName ref : String) : String :=
  chartName ++ "/" ++ envName ++ " (" ++ ref ++ ")"

/-- `domain.CountByStatus`: counts of results grouped by status, returned as
(success, changes, errors). -/
def countByStatus (results : List DiffResult) : Nat × Nat × Nat :=
  results.foldl
    (fun acc r =>
      match r.status with
      | Status.success => (acc.1 + 1, acc.2.1, acc.2.2)
      | Status.changes => (acc.1, acc.2.1 + 1, acc.2.2)
      | Status.error => (acc.1, acc.2.1, acc.2.2 + 1))
    (0, 0, 0)

/-- `domain.DiffResult.PreferredDiff`: the semantic diff when non-empty,
otherwise the unified diff. -/
def preferredDiff (r : DiffResult) : String :=
  if r.semanticDiff ≠ "" then r.semanticDiff else r.unifiedDiff

/-- Outcome of `ports.SourceControlPort.FetchChartFiles` for one (ref, path)
pair: a fetched directory, the distinguishable NotFound condition
(`domain.IsNotFound`), or any other error.  The NotFound and error cases carry
the error's message string. -/
inductive FetchResult
  | ok (dir : String)
  | notFound (msg : String)
  | err (msg : String)
deriving DecidableEq, Repr

/-- `FetchResult.isHardErr` is true exactly for the non-NotFound error case
(the only case in which Go's `err != nil && !domain.IsNotFound(err)` holds). -/
def FetchResult.isHardErr : FetchResult → Bool
  | FetchResult.err _ => true
  | _ => false

/-- `FetchResult.isOk` is true exactly when a directory was fetched. -/
def FetchResult.isOk : FetchResult → Bool
  | FetchResult.ok _ => true
  | _ => false

/-- The driven ports used by `DiffService.processChart`:
`fetch ref chartPath` models `FetchChartFiles` (owner/repo fixed by the PR),
`render dir valueFiles` models `RendererPort.Render` (manifest bytes as a
`String`), and the two diff strategies model `DiffPort.ComputeDiff
baseName headName base head`. -/
structure ServicePorts where
  fetch : String → String → FetchResult
  render : String → List String → Except String String
  semanticDiff : String → String → String → String → String
  unifiedDiff : String → String → String → String → String

/-- Helper for `splitSlash`: split a character list at every separator,
carrying the (reversed) current component. -/
def splitSlashAux (sep : Char) : List Char → List Char → List (List Char)
  | [], acc => [acc.reverse]
  | c :: rest, acc =>
    if c = sep then acc.reverse :: splitSlashAux sep rest []
    else splitSlashAux sep rest (c :: acc)

/-- Go's `strings.Split(s, "/")`: the `/`-separated components of `s`
(the empty string yields one empty component, as in Go). -/
def splitSlash (s : String) : List String :=
  (splitSlashAux '/' s.data []).map String.mk

/-- `extractChartNameFromPath` in `service.go`: `filepath.Base`, i.e. the last
non-empty `/`-separated component ("charts/my-app" gives "my-app"); an
all-separator path gives "/" and an empty path gives ".". -/
def extractChartNameFromPath (path : String) : String :=
  match ((splitSlash path).filter (fun c => c ≠ "")).getLast? with
  | some c => c
  | none =>
    match path.data with
    | [] => "."
    | c :: _ => if c = '/' then "/" else "."

/-- `DiffService.diffChartEnv`: render base (unless suppressed), render head,
compute the semantic and unified diffs, and classify.  A missing base
(`baseExists = false`) leaves the base manifest empty, exactly as the Go code
leaves `baseManifest` nil.  Render failures are returned as errors wrapped
with the same prefixes the Go code uses. -/
def diffChartEnv (P : ServicePorts) (pr : PRContext)
    (chartName baseDir headDir : String) (baseExists : Bool)
    (env : EnvironmentConfig) : Except String DiffResult :=
  let baseStep : Except String String :=
    if baseExists then
      match P.render baseDir env.valueFiles with
      | Except.ok m => Except.ok m
      | Except.error e => Except.error ("failed to render base branch: " ++ e)
    else Except.ok ""
  match baseStep with
  | Except.error e => Except.error e
  | Except.ok baseManifest =>
    match P.render headDir env.valueFiles with
    | Except.error e => Except.error ("failed to render PR changes: " ++ e)
    | Except.ok headManifest =>
      let baseName := diffLabel chartName env.name pr.baseRef
      let headName := diffLabel chartName env.name pr.headRef
      let semanticDiff := P.semanticDiff baseName headName baseManifest headManifest
      let unifiedDiff := P.unifiedDiff baseName headName baseManifest headManifest
      let changed := unifiedDiff ≠ "" ∨ semanticDiff ≠ ""
      Except.ok
        { chartName := chartName
          environment := env.name
          baseRef := pr.baseRef
          headRef := pr.headRef
          status := if changed then Status.changes else Status.success
          unifiedDiff := unifiedDiff
          semanticDiff := semanticDiff
          summary :=
            if changed then
              "Changes detected in " ++ chartName ++ " for environment " ++
                env.name ++ "."
            else noChangesMessage }

/-- Body of the environment loop in `DiffService.processChart`: an environment
with a non-empty message and no value files is skipped (reported as
`StatusSuccess` with the message as summary); otherwise `diffChartEnv` runs
and its error, if any, becomes a `StatusError` result with the error text as
summary. -/
def processEnvironment (P : ServicePorts) (pr : PRContext)
    (chartName baseDir headDir : String) (baseExists : Bool)
    (env : EnvironmentConfig) : DiffResult :=
  if env.message ≠ "" ∧ env.valueFiles = [] then
    { chartName := chartName
      environment := env.name
      baseRef := pr.baseRef
      headRef := pr.headRef
      status := Status.success
      unifiedDiff := ""
      semanticDiff := ""
      summary := env.message }
  else
    match diffChartEnv P pr chartName baseDir headDir baseExists env with
    | Except.ok r => r
    | Except.error e =>
      { chartName := chartName
        environment := env.name
        baseRef := pr.baseRef
        headRef := pr.headRef
        status := Status.error
        unifiedDiff := ""
        semanticDiff := ""
        summary := e }

/-- The head-fetch step and the environment loop of `processChart`: a failed
head fetch (the Go code treats NotFound on head like any other error) yields
the single environment-"all" error result; otherwise the loop appends exactly
one result per configured environment, which is a `List.map`. -/
def processChartWithBase (P : ServicePorts) (pr : PRContext)
    (chartName chartPath baseDir : String) (baseExists : Bool)
    (envs : List EnvironmentConfig) : List DiffResult :=
  match P.fetch pr.headRef chartPath with
  | FetchResult.ok headDir =>
    envs.map (processEnvironment P pr chartName baseDir headDir baseExists)
  | FetchResult.notFound m =>
    [{ chartName := chartName, environment := "all", baseRef := pr.baseRef,
       headRef := pr.headRef, status := Status.error, unifiedDiff := "",
       semanticDiff := "", summary := "❌ Error fetching head chart: " ++ m }]
  | FetchResult.err m =>
    [{ chartName := chartName, environment := "all", baseRef := pr.baseRef,
       headRef := pr.headRef, status := Status.error, unifiedDiff := "",
       semanticDiff := "", summary := "❌ Error fetching head chart: " ++ m }]

/-- `DiffService.processChart`: fetch base files (NotFound suppresses base
rendering; any other error short-circuits with one environment-"all" error
result), fetch head files, then diff each configured environment in order. -/
def processChart (P : ServicePorts) (pr : PRContext) (config : ChartConfig) :
    List DiffResult :=
  let chartName := extractChartNameFromPath config.path
  let chartPath := config.path
  match P.fetch pr.baseRef chartPath with
  | FetchResult.err e =>
    [{ chartName := chartName, environment := "all", baseRef := pr.baseRef,
       headRef := pr.headRef, status := Status.error, unifiedDiff := "",
       semanticDiff := "", summary := "❌ Error fetching base chart: " ++ e }]
  | FetchResult.notFound _ =>
    processChartWithBase P pr chartName chartPath "" false config.environments
  | FetchResult.ok baseDir =>
    processChartWithBase P pr chartName chartPath baseDir true config.environments

/-- The value recorded in the config.source span attribute of
`getChartConfig`: which resolver produced the configuration. -/
inductive ConfigSource
  | argo
  | filesystem
  | defaultValues
deriving DecidableEq, Repr

/-- The part of `DiffService.getChartConfig` after the Argo attempt: use the
filesystem discovery result when it is non-empty (its error aborts
resolution, wrapped as in the Go code), else synthesize a single "default"
environment with no value files and no message. -/
def getChartConfigFallback (fs : Except String ChartConfig)
    (chartName : String) : Except String (ChartConfig × ConfigSource) :=
  match fs with
  | Except.error e =>
    Except.error ("discovering environments for " ++ chartName ++ ": " ++ e)
  | Except.ok config =>
    if config.environments.length > 0 then
      Except.ok (config, ConfigSource.filesystem)
    else
      Except.ok
        ({ path := "charts/" ++ chartName,
           environments := [{ name := "default", valueFiles := [], message := "" }] },
         ConfigSource.defaultValues)

/-- `DiffService.getChartConfig`: try the Argo index (when the adapter is
configured, i.e. `argo = some r`, its call result `r` is used only when it is
error-free and non-empty), otherwise continue with
`getChartConfigFallback`. -/
def getChartConfig (argo : Option (Except String ChartConfig))
    (fs : Except String ChartConfig) (chartName : String) :
    Except String (ChartConfig × ConfigSource) :=
  let fromArgo : Option ChartConfig :=
    match argo with
    | some (Except.ok config) =>
      if config.environments.length > 0 then some config else none
    | _ => none
  match fromArgo with
  | some config => Except.ok (config, ConfigSource.argo)
  | none => getChartConfigFallback fs chartName

/-- `hasChanges` in `service.go`: true when any result is `StatusChanges` or
`StatusError`. -/
def hasChanges (results : List DiffResult) : Bool :=
  results.any (fun r => r.status = Status.changes || r.status = Status.error)

/-- Go map lookup on an association-list representation (`m[k]`,
comparing the stored key against the queried one). -/
def lookupAssoc {α : Type} (m : List (String × α)) (k : String) : Option α :=
  match m with
  | [] => none
  | (k', v) :: rest => if k' = k then some v else lookupAssoc rest k

/-- Go map assignment `m[k] = v` on the association-list representation:
replaces the value of an existing key in place, else appends the new key. -/
def updateAssoc {α : Type} (m : List (String × α)) (k : String) (v : α) :
    List (String × α) :=
  match m with
  | [] => [(k, v)]
  | (k', v') :: rest =>
    if k' = k then (k, v) :: rest else (k', v') :: updateAssoc rest k v

/-- The two result accumulators of `DiffService.Execute`: `allResults` (the
appended flat list driving the check run) and `chartResults` (the
chart-name-keyed map driving per-chart comments). -/
structure ExecState where
  allResults : List DiffResult
  chartResults : List (String × List DiffResult)
deriving DecidableEq, Repr

/-- One iteration of the chart loop of `DiffService.Execute`: resolve the
chart's configuration and process it (`resolve` composes `getChartConfig` and
`processChart`; `none` models a failed resolution, which is logged and
skipped), appending to `allResults` and overwriting `chartResults[name]`. -/
def collectStep (resolve : ChangedChart → Option (List DiffResult))
    (st : ExecState) (chart : ChangedChart) : ExecState :=
  match resolve chart with
  | none => st
  | some results =>
    { allResults := st.allResults ++ results
      chartResults := updateAssoc st.chartResults chart.name results }

/-- The chart loop of `DiffService.Execute` over the changed-chart list. -/
def executeCollect (resolve : ChangedChart → Option (List DiffResult))
    (charts : List ChangedChart) : ExecState :=
  charts.foldl (collectStep resolve) { allResults := [], chartResults := [] }

/-- The comment loop of `DiffService.Execute`: the charts for which
`PostComment` is called are exactly the entries of `chartResults` whose
results satisfy `hasChanges`. -/
def commentCharts (st : ExecState) : List String :=
  (st.chartResults.filter (fun p => hasChanges p.2)).map Prod.fst

/-- The value the Go map `chartResults[n]` ends up holding: the results of the
last changed-chart entry named `n` whose resolution succeeded, if any. -/
def lastResolved (resolve : ChangedChart → Option (List DiffResult))
    (charts : List ChangedChart) (n : String) : Option (List DiffResult) :=
  charts.foldl
    (fun acc chart =>
      match resolve chart with
      | some results => if chart.name = n then some results else acc
      | none => acc)
    none

/-- `strings.Contains`: substring containment on the underlying character
lists. -/
def strContains (s pat : String) : Bool :=
  decide (List.IsInfix pat.data s.data)

/-- The per-chart hidden HTML comment marker built in
`githubout.Adapter.PostComment` and `FormatPRComment`. -/
def commentMarker (appName chartName : String) : String :=
  "<!-- " ++ appName ++ ": " ++ chartName ++ " -->"

/-- The status labels of the environment table in `FormatPRComment`. -/
def statusTableLabel : Status → String
  | Status.error => "❌ Error"
  | Status.changes => "📝 Changed"
  | Status.success => "✅ No changes"

/-- `githubout.Adapter.FormatPRComment`: marker line, report header, status
line, environment table, per-environment detail sections (errors and diffs
only; unchanged environments are skipped) and footer. -/
def formatPRComment (appName appURL : String) (results : List DiffResult) :
    String :=
  match results with
  | [] => ""
  | r0 :: _ =>
    let chartName := r0.chartName
    let header := "## 📊 Helm Diff Report: `" ++ chartName ++ "`\n\n"
    let counts := countByStatus results
    let changes := counts.2.1
    let errorCount := counts.2.2
    let statusLine :=
      if errorCount > 0 then "❌ **Status:** Failed to analyze chart\n\n"
      else if changes > 0 then
        "✅ **Status:** Analysis complete — " ++ toString changes ++
          " environment(s) with changes\n\n"
      else "✅ **Status:** Analysis complete — No changes detected\n\n"
    let tableHeader := "| Environment | Status |\n|-------------|--------|\n"
    let tableRows := String.join (results.map (fun r =>
      "| `" ++ r.environment ++ "` | " ++ statusTableLabel r.status ++ " |\n"))
    let detailSections := String.join (results.map (fun r =>
      match r.status with
      | Status.error =>
        "<details>\n<summary><b>" ++ r.environment ++
          "</b> — Error details</summary>\n\n" ++ r.summary ++ "\n\n</details>\n\n"
      | Status.changes =>
        "<details>\n<summary><b>" ++ r.environment ++
          "</b> — View diff</summary>\n\n```diff\n" ++ preferredDiff r ++
          "\n```\n\n</details>\n\n"
      | Status.success => ""))
    let footer := "---\n" ++
      (if appURL ≠ "" then
        "_Posted by [" ++ appName ++ "](" ++ appURL ++ ")_\n"
      else "_Posted by " ++ appName ++ "_\n")
    commentMarker appName chartName ++
      ("\n" ++ header ++ statusLine ++ tableHeader ++ tableRows ++ "\n" ++
        detailSections ++ footer)

/-- `githubout.Adapter.PostComment` acting on the PR's comment store (the list
of existing comment bodies): empty results are rejected, then
`deleteMatchingComments` removes every comment containing the chart's marker,
then the freshly formatted comment is created. -/
def postComment (appName appURL : String) (store : List String)
    (results : List DiffResult) : Except String (List String) :=
  match results with
  | [] => Except.error "no results to post comment"
  | r0 :: _ =>
    let marker := commentMarker appName r0.chartName
    let afterDelete := store.filter (fun c => !(strContains c marker))
    Except.ok (afterDelete ++ [formatPRComment appName appURL results])

/-- `argo.AppData`: the slice of an Argo Application manifest kept in the
configuration index. -/
structure AppData where
  chartName : String
  chartPath : String
  environment : String
  valueFiles : List String
  repoURL : String
deriving DecidableEq, Repr

/-- The index map of `argo.Adapter` (chart name to its applications),
represented as an association list. -/
abbrev IndexMap := List (String × List AppData)

/-- The Go map append `index[app.ChartName] = append(index[app.ChartName], app)`
performed for each indexed file in `rebuildIndex`. -/
def appendApp (m : IndexMap) (app : AppData) : IndexMap :=
  match m with
  | [] => [(app.chartName, [app])]
  | (k, v) :: rest =>
    if k = app.chartName then (k, v ++ [app]) :: rest
    else (k, v) :: appendApp rest app

/-- One file of the walk in `rebuildIndex`: `processApplicationFile` either
yields an app to index (`some`) or is skipped (`none`: not YAML, not an
Application, a parse failure, or a failed folder-pattern extraction). -/
def stepEntry (m : IndexMap) (e : Option AppData) : IndexMap :=
  match e with
  | none => m
  | some app => appendApp m app

/-- The fresh map built by one full walk in `rebuildIndex`, before the swap. -/
def buildIndex (files : List (Option AppData)) : IndexMap :=
  files.foldl stepEntry []

/-- A point in a rebuild cycle: the published index (the one `a.index` holds,
read under `a.mu.RLock`), the local map under construction, and how many files
of the walk have been processed. -/
structure RebuildState where
  published : IndexMap
  localMap : IndexMap
  processed : Nat
deriving DecidableEq, Repr

/-- The atomic steps of `rebuildIndex` as observable by a concurrent reader:
each `scan` step folds one file into the local map without touching the
published index; the final `swap` step is the single `a.index = index`
assignment under the write lock. -/
inductive RebuildStep (files : List (Option AppData)) :
    RebuildState → RebuildState → Prop
  | scan (p l : IndexMap) (k : Nat) (h : k < files.length) :
    RebuildStep files ⟨p, l, k⟩ ⟨p, stepEntry l (files.get ⟨k, h⟩), k + 1⟩
  | swap (p l : IndexMap) :
    RebuildStep files ⟨p, l, files.length⟩ ⟨l, l, files.length + 1⟩

/-- `argo.Adapter.GetEnvironmentConfig`: look the chart up in the index; a
missing or empty entry yields an empty-environment config (so the composite
resolver falls through), otherwise the config takes its path from the first
app and one environment per app. -/
def getEnvironmentConfig (chartDir : String) (index : IndexMap)
    (chartName : String) : ChartConfig :=
  match lookupAssoc index chartName with
  | none =>
    { path := chartDir ++ "/" ++ chartName, environments := [] }
  | some [] =>
    { path := chartDir ++ "/" ++ chartName, environments := [] }
  | some (a0 :: rest) =>
    { path := a0.chartPath
      environments := (a0 :: rest).map (fun a =>
        { name := a.environment, valueFiles := a.valueFiles, message := "" }) }

/-- `filepath.Dir` followed by `strings.Split(-, "/")` on a cleaned relative
path, with the path itself represented by its `/`-separated components: a
single component gives Dir = ".", otherwise the filename is dropped. -/
def dirParts (pathParts : List String) : List String :=
  if pathParts.length ≤ 1 then ["."] else pathParts.dropLast

/-- `argo.Adapter.extractFromFolderStructure`: split the directory of the
path (given by its components, after `filepath.Rel` from the repo root) and
the slot pattern, require at least as many path components as pattern slots,
map the last N components onto the slots, and reject empty extractions. -/
def extractFromFolderStructure (folderPattern : String)
    (pathParts : List String) : Except String (String × String) :=
  let parts := dirParts pathParts
  let patternParts := splitSlash folderPattern
  if parts.length < patternParts.length then
    Except.error "path has fewer components than pattern"
  else
    let offset := parts.length - patternParts.length
    let relevantParts := parts.drop offset
    let extracted := (patternParts.zip relevantParts).foldl
      (fun acc pp =>
        if pp.1 = "{chartName}" then (pp.2, acc.2)
        else if pp.1 = "{envName}" then (acc.1, pp.2)
        else acc)
      ("", "")
    if extracted.1 = "" then
      Except.error "could not extract chartName from path"
    else if extracted.2 = "" then
      Except.error "could not extract envName from path"
    else Except.ok extracted

/-- The outcome of `gogithub.ParseWebHook`: a pull-request event with its
action, or some other recognized event. -/
inductive ParsedEvent
  | pullRequest (action : String) (pr : PRContext)
  | otherEvent (name : String)
deriving Repr

/-- `githubin.WebhookHandler.ServeHTTP`, returning the HTTP status code:
`ValidatePayload` (HMAC-SHA256 of the raw body, modeled by the abstract
`hmacSig` with the library's constant-time compare modeled as equality) gives
401 on mismatch; an unparseable payload gives 400; a non-pull-request event or
an action outside opened/synchronize/reopened gives 200; an accepted event is
dispatched asynchronously and gives 202. -/
def serveHTTP (secret : String) (hmacSig : String → String → String)
    (parseWebHook : String → String → Except String ParsedEvent)
    (eventType body signature : String) : Nat :=
  if signature = hmacSig secret body then
    match parseWebHook eventType body with
    | Except.error _ => 400
    | Except.ok (ParsedEvent.otherEvent _) => 200
    | Except.ok (ParsedEvent.pullRequest action _) =>
      if action = "opened" ∨ action = "synchronize" ∨ action = "reopened" then
        202
      else 200
  else 401

/-! ### Concrete fixtures used to evaluate the embedding -/

/-- A concrete pull-request context. -/
def prA : PRContext :=
  { owner := "octo", repo := "demo", prNumber := 7, baseRef := "main",
    headRef := "feature", headSHA := "abc123" }

/-- A staging environment with one value file. -/
def envStaging : EnvironmentConfig :=
  { name := "staging", valueFiles := ["env/staging-values.yaml"], message := "" }

/-- A prod environment with one value file. -/
def envProd : EnvironmentConfig :=
  { name := "prod", valueFiles := ["env/prod-values.yaml"], message := "" }

/-- A chart configured in two environments. -/
def cfgTwoEnvs : ChartConfig :=
  { path := "charts/my-app", environments := [envStaging, envProd] }

/-- Ports where both fetches succeed (the fetched directory is the ref, so
base and head manifests differ) and both differs report a delta whenever the
manifests differ. -/
def portsOk : ServicePorts :=
  { fetch := fun ref _ => FetchResult.ok ref
    render := fun dir vfs => Except.ok (dir ++ ":" ++ String.join vfs)
    semanticDiff := fun _ _ b h => if b = h then "" else "semantic delta"
    unifiedDiff := fun _ _ b h => if b = h then "" else "unified delta" }

/-- Ports where fetching the head ref fails with a hard error. -/
def portsHeadFetchErr : ServicePorts :=
  { portsOk with
    fetch := fun ref _ =>
      if ref = "feature" then FetchResult.err "boom" else FetchResult.ok ref }

/-- Ports where the chart is missing at the base ref (NotFound) and both
renders succeed. -/
def portsNewChart : ServicePorts :=
  { portsOk with
    fetch := fun ref _ =>
      if ref = "main" then FetchResult.notFound "chart not found at main"
      else FetchResult.ok "headdir" }

/-- Ports where the chart is missing at the base ref and rendering fails. -/
def portsNewChartRenderErr : ServicePorts :=
  { portsNewChart with render := fun _ _ => Except.error "render broke" }

/-- The result `portsOk` yields for the staging environment of `cfgTwoEnvs`. -/
def resStagingChanged : DiffResult :=
  { chartName := "my-app", environment := "staging", baseRef := "main",
    headRef := "feature", status := Status.changes,
    unifiedDiff := "unified delta", semanticDiff := "semantic delta",
    summary := "Changes detected in my-app for environment staging." }

/-- A changed chart named my-app. -/
def chartA : ChangedChart := { name := "my-app", path := "charts/my-app" }

/-- A changed chart named other. -/
def chartB : ChangedChart := { name := "other", path := "charts/other" }

/-- An entirely-unchanged result for the chart named other. -/
def resUnchangedOther : DiffResult :=
  { chartName := "other", environment := "prod", baseRef := "main",
    headRef := "feature", status := Status.success, unifiedDiff := "",
    semanticDiff := "", summary := noChangesMessage }

/-- A concrete resolution function: my-app has a changed result, other is
entirely unchanged. -/
def resolveTwo : ChangedChart → Option (List DiffResult) :=
  fun c =>
    if c.name = "my-app" then some [resStagingChanged]
    else some [resUnchangedOther]

/-- A concrete webhook secret. -/
def secretC : String := "s3cr3t"

/-- A concrete stand-in for HMAC-SHA256: injective on these fixtures. -/
def hmacC : String → String → String :=
  fun secret body => "hmac(" ++ secret ++ "," ++ body ++ ")"

/-- A concrete stand-in for `ParseWebHook`: pull_request events parse to a
pull-request event whose action is the body (body "bad" is unparseable);
other event types parse to other events. -/
def parseC : String → String → Except String ParsedEvent :=
  fun eventType body =>
    if eventType = "pull_request" then
      if body = "bad" then Except.error "unparseable"
      else Except.ok (ParsedEvent.pullRequest body prA)
    else Except.ok (ParsedEvent.otherEvent eventType)

/-- A concrete Argo application for index fixtures. -/
def appA : AppData :=
  { chartName := "app-a", chartPath := "charts/app-a", environment := "prod",
    valueFiles := ["values/prod.yaml"],
    repoURL := "https://example.com/repo.git" }

/-- A concrete previous index holding one other chart. -/
def oldIx : IndexMap :=
  [("app-old",
    [{ chartName := "app-old", chartPath := "charts/app-old",
       environment := "dev", valueFiles := [], repoURL := "u" }])]

/-! ### C1: result count and order of processChart -/

/-- A successful `diffChartEnv` result carries the environment's name. -/
theorem diffChartEnv_environment (P : ServicePorts) (pr : PRContext)
    (cn bd hd : String) (be : Bool) (env : EnvironmentConfig) (r : DiffResult)
    (h : diffChartEnv P pr cn bd hd be env = Except.ok r) :
    r.environment = env.name := by
  unfold diffChartEnv at h
  repeat' split at h
  all_goals try simp_all
  all_goals subst h
  all_goals rfl

/-- Every result built by the environment loop carries the name of the
environment it was built for. -/
theorem processEnvironment_environment (P : ServicePorts) (pr : PRContext)
    (cn bd hd : String) (be : Bool) (env : EnvironmentConfig) :
    (processEnvironment P pr cn bd hd be env).environment = env.name := by
  unfold processEnvironment
  split
  · rfl
  · cases hdc : diffChartEnv P pr cn bd hd be env with
    | ok r =>
      simp only [hdc]
      exact diffChartEnv_environment P pr cn bd hd be env r hdc
    | error e => simp only [hdc]

/-- Claim C1 (counterexample): with two configured environments but a failing
head fetch, `processChart` returns a single environment-"all" result, not one
result per environment. -/
theorem c1_counterexample :
    (processChart portsHeadFetchErr prA cfgTwoEnvs).length ≠
      cfgTwoEnvs.environments.length := by
  decide

/-- Claim C1 (amended): provided the base fetch does not hard-fail and the
head fetch succeeds, `processChart` returns exactly one result per configured
environment, in input order: the i-th result belongs to the i-th environment.
(The environment loop is sequential, so this holds trivially for any
completion order.) -/
theorem c1_order_amended (P : ServicePorts) (pr : PRContext)
    (config : ChartConfig)
    (hb : (P.fetch pr.baseRef config.path).isHardErr = false)
    (hh : (P.fetch pr.headRef config.path).isOk = true) :
    (processChart P pr config).length = config.environments.length ∧
    ∀ i (h1 : i < (processChart P pr config).length)
      (h2 : i < config.environments.length),
      ((processChart P pr config).get ⟨i, h1⟩).environment =
        (config.environments.get ⟨i, h2⟩).name := by
  cases hfh : P.fetch pr.headRef config.path with
  | notFound m => rw [hfh] at hh; simp [FetchResult.isOk] at hh
  | err m => rw [hfh] at hh; simp [FetchResult.isOk] at hh
  | ok headDir =>
    cases hfb : P.fetch pr.baseRef config.path with
    | err m => rw [hfb] at hb; simp [FetchResult.isHardErr] at hb
    | notFound m =>
      have hres : processChart P pr config =
          config.environments.map
            (processEnvironment P pr (extractChartNameFromPath config.path)
              "" headDir false) := by
        simp only [processChart, processChartWithBase, hfb, hfh]
      constructor
      · rw [hres, List.length_map]
      · intro i h1 h2
        revert h1
        rw [hres]
        intro h1
        rw [List.get_eq_getElem, List.get_eq_getElem, List.getElem_map]
        exact processEnvironment_environment _ _ _ _ _ _ _
    | ok baseDir =>
      have hres : processChart P pr config =
          config.environments.map
            (processEnvironment P pr (extractChartNameFromPath config.path)
              baseDir headDir true) := by
        simp only [processChart, processChartWithBase, hfb, hfh]
      constructor
      · rw [hres, List.length_map]
      · intro i h1 h2
        revert h1
        rw [hres]
        intro h1
        rw [List.get_eq_getElem, List.get_eq_getElem, List.getElem_map]
        exact processEnvironment_environment _ _ _ _ _ _ _

/-- Witness for C1 (amended) at concrete ports and a two-environment chart. -/
theorem c1_order_amended_witness :
    ((portsOk.fetch prA.baseRef cfgTwoEnvs.path).isHardErr = false ∧
      (portsOk.fetch prA.headRef cfgTwoEnvs.path).isOk = true) ∧
    ((processChart portsOk prA cfgTwoEnvs).length =
        cfgTwoEnvs.environments.length ∧
      ∀ i (h1 : i < (processChart portsOk prA cfgTwoEnvs).length)
        (h2 : i < cfgTwoEnvs.environments.length),
        ((processChart portsOk prA cfgTwoEnvs).get ⟨i, h1⟩).environment =
          (cfgTwoEnvs.environments.get ⟨i, h2⟩).name) :=
  ⟨⟨by decide, by decide⟩,
    c1_order_amended portsOk prA cfgTwoEnvs (by decide) (by decide)⟩

/-! ### C3: the DiffResult status invariant -/

/-- Appending to a non-empty string yields a non-empty string. -/
theorem string_append_ne_empty (s t : String) (hs : s ≠ "") : s ++ t ≠ "" := by
  intro h
  apply hs
  have hd : s.data ++ t.data = [] := congrArg String.data h
  have h1 : s.data = [] := (List.append_eq_nil.mp hd).1
  cases s
  simp_all

/-- The status classifier of `diffChartEnv`: it selects `StatusChanges` only
when one of the diff texts is non-empty, and never selects `StatusError`. -/
theorem status_ite_invariant (u s : String) :
    ((if u ≠ "" ∨ s ≠ "" then Status.changes else Status.success) =
        Status.changes → u ≠ "" ∨ s ≠ "") ∧
    (if u ≠ "" ∨ s ≠ "" then Status.changes else Status.success) ≠
      Status.error := by
  by_cases hc : u ≠ "" ∨ s ≠ "" <;> simp [hc]

/-- A successful `diffChartEnv` is classified `StatusChanges` only when one of
the two computed diff texts is non-empty, and is never `StatusError`. -/
theorem diffChartEnv_ok_invariant (P : ServicePorts) (pr : PRContext)
    (cn bd hd : String) (be : Bool) (env : EnvironmentConfig) (r : DiffResult)
    (h : diffChartEnv P pr cn bd hd be env = Except.ok r) :
    (r.status = Status.changes → r.unifiedDiff ≠ "" ∨ r.semanticDiff ≠ "") ∧
    r.status ≠ Status.error := by
  unfold diffChartEnv at h
  repeat' split at h
  all_goals try simp_all
  all_goals subst h
  all_goals exact status_ite_invariant _ _

/-- A failed `diffChartEnv` returns a non-empty error message (both render
failures are wrapped with a non-empty prefix). -/
theorem diffChartEnv_error_ne_empty (P : ServicePorts) (pr : PRContext)
    (cn bd hd : String) (be : Bool) (env : EnvironmentConfig) (e : String)
    (h : diffChartEnv P pr cn bd hd be env = Except.error e) : e ≠ "" := by
  unfold diffChartEnv at h
  repeat' split at h
  all_goals try simp_all
  all_goals
    rw [← h]
    exact string_append_ne_empty _ _ (by decide)

/-- Every result of the environment loop satisfies the status invariant. -/
theorem processEnvironment_invariant (P : ServicePorts) (pr : PRContext)
    (cn bd hd : String) (be : Bool) (env : EnvironmentConfig) :
    ((processEnvironment P pr cn bd hd be env).status = Status.changes →
      (processEnvironment P pr cn bd hd be env).unifiedDiff ≠ "" ∨
        (processEnvironment P pr cn bd hd be env).semanticDiff ≠ "") ∧
    ((processEnvironment P pr cn bd hd be env).status = Status.error →
      (processEnvironment P pr cn bd hd be env).summary ≠ "") := by
  unfold processEnvironment
  split
  · constructor
    · intro hst
      exact absurd hst (by simp)
    · intro hst
      exact absurd hst (by simp)
  · cases hdc : diffChartEnv P pr cn bd hd be env with
    | ok r =>
      simp only [hdc]
      have hinv := diffChartEnv_ok_invariant P pr cn bd hd be env r hdc
      exact ⟨hinv.1, fun hst => absurd hst hinv.2⟩
    | error e =>
      simp only [hdc]
      constructor
      · intro hst
        exact absurd hst (by simp)
      · intro _
        exact diffChartEnv_error_ne_empty P pr cn bd hd be env e hdc

/-- Claim C3: every result produced by `processChart` satisfies the
invariant: `StatusChanges` implies at least one non-empty diff text, and
`StatusError` implies a non-empty summary. -/
theorem c3_result_invariant (P : ServicePorts) (pr : PRContext)
    (config : ChartConfig) :
    ∀ r ∈ processChart P pr config,
      (r.status = Status.changes →
        r.unifiedDiff ≠ "" ∨ r.semanticDiff ≠ "") ∧
      (r.status = Status.error → r.summary ≠ "") := by
  intro r hr
  have hsingle : ∀ (cnm msg : String),
      r = { chartName := cnm, environment := "all", baseRef := pr.baseRef,
            headRef := pr.headRef, status := Status.error, unifiedDiff := "",
            semanticDiff := "",
            summary := msg } →
      msg ≠ "" →
      (r.status = Status.changes →
        r.unifiedDiff ≠ "" ∨ r.semanticDiff ≠ "") ∧
      (r.status = Status.error → r.summary ≠ "") := by
    intro cnm msg hre hmsg
    subst hre
    exact ⟨fun hst => absurd hst (by simp), fun _ => hmsg⟩
  have hmap : ∀ (bd hd : String) (be : Bool),
      r ∈ config.environments.map
        (processEnvironment P pr (extractChartNameFromPath config.path)
          bd hd be) →
      (r.status = Status.changes →
        r.unifiedDiff ≠ "" ∨ r.semanticDiff ≠ "") ∧
      (r.status = Status.error → r.summary ≠ "") := by
    intro bd hd be hmem
    rw [List.mem_map] at hmem
    obtain ⟨env, _, hre⟩ := hmem
    rw [← hre]
    exact processEnvironment_invariant P pr _ _ _ _ env
  cases hfb : P.fetch pr.baseRef config.path with
  | err e =>
    simp only [processChart, hfb, List.mem_singleton] at hr
    exact hsingle _ _ hr (string_append_ne_empty _ _ (by decide))
  | notFound m =>
    cases hfh : P.fetch pr.headRef config.path with
    | ok hd =>
      simp only [processChart, processChartWithBase, hfb, hfh] at hr
      exact hmap _ _ _ hr
    | notFound m2 =>
      simp only [processChart, processChartWithBase, hfb, hfh,
        List.mem_singleton] at hr
      exact hsingle _ _ hr (string_append_ne_empty _ _ (by decide))
    | err m2 =>
      simp only [processChart, processChartWithBase, hfb, hfh,
        List.mem_singleton] at hr
      exact hsingle _ _ hr (string_append_ne_empty _ _ (by decide))
  | ok bd =>
    cases hfh : P.fetch pr.headRef config.path with
    | ok hd =>
      simp only [processChart, processChartWithBase, hfb, hfh] at hr
      exact hmap _ _ _ hr
    | notFound m2 =>
      simp only [processChart, processChartWithBase, hfb, hfh,
        List.mem_singleton] at hr
      exact hsingle _ _ hr (string_append_ne_empty _ _ (by decide))
    | err m2 =>
      simp only [processChart, processChartWithBase, hfb, hfh,
        List.mem_singleton] at hr
      exact hsingle _ _ hr (string_append_ne_empty _ _ (by decide))

/-- Witness for C3 at a concrete run. -/
theorem c3_result_invariant_witness :
    (resStagingChanged ∈ processChart portsOk prA cfgTwoEnvs) ∧
    ((resStagingChanged.status = Status.changes →
        resStagingChanged.unifiedDiff ≠ "" ∨
          resStagingChanged.semanticDiff ≠ "") ∧
      (resStagingChanged.status = Status.error →
        resStagingChanged.summary ≠ "")) :=
  ⟨by decide,
    c3_result_invariant portsOk prA cfgTwoEnvs resStagingChanged (by decide)⟩

/-! ### C4: NotFound base ref -/

/-- Claim C4 (counterexample): with the base fetch NotFound and an
environment that has value files, a failed head render yields a `StatusError`
outcome, not `StatusChanges`. -/
theorem c4_counterexample :
    envProd.valueFiles ≠ [] ∧
    (processChart portsNewChartRenderErr prA
        { path := "charts/my-app", environments := [envProd] }).map
      DiffResult.status = [Status.error] := by
  decide

/-- Claim C4 (amended): if the base fetch returns NotFound and the head fetch
succeeds, `processChart` does not fail and emits no fetch-related error
result: it returns one result per environment, and every environment with
value files whose head render succeeds is diffed against an empty base
manifest, classified `StatusChanges` exactly when one of the differs reports
non-empty text (so any reported content is additions relative to an empty
base). -/
theorem c4_notfound_amended (P : ServicePorts) (pr : PRContext)
    (config : ChartConfig) (m hd : String)
    (hb : P.fetch pr.baseRef config.path = FetchResult.notFound m)
    (hh : P.fetch pr.headRef config.path = FetchResult.ok hd) :
    processChart P pr config =
      config.environments.map
        (processEnvironment P pr (extractChartNameFromPath config.path)
          "" hd false) ∧
    ∀ env : EnvironmentConfig, env.valueFiles ≠ [] →
      ∀ hm, P.render hd env.valueFiles = Except.ok hm →
        processEnvironment P pr (extractChartNameFromPath config.path)
            "" hd false env =
          { chartName := extractChartNameFromPath config.path
            environment := env.name
            baseRef := pr.baseRef
            headRef := pr.headRef
            status :=
              if P.unifiedDiff
                    (diffLabel (extractChartNameFromPath config.path) env.name
                      pr.baseRef)
                    (diffLabel (extractChartNameFromPath config.path) env.name
                      pr.headRef) "" hm ≠ "" ∨
                  P.semanticDiff
                    (diffLabel (extractChartNameFromPath config.path) env.name
                      pr.baseRef)
                    (diffLabel (extractChartNameFromPath config.path) env.name
                      pr.headRef) "" hm ≠ "" then
                Status.changes
              else Status.success
            unifiedDiff :=
              P.unifiedDiff
                (diffLabel (extractChartNameFromPath config.path) env.name
                  pr.baseRef)
                (diffLabel (extractChartNameFromPath config.path) env.name
                  pr.headRef) "" hm
            semanticDiff :=
              P.semanticDiff
                (diffLabel (extractChartNameFromPath config.path) env.name
                  pr.baseRef)
                (diffLabel (extractChartNameFromPath config.path) env.name
                  pr.headRef) "" hm
            summary :=
              if P.unifiedDiff
                    (diffLabel (extractChartNameFromPath config.path) env.name
                      pr.baseRef)
                    (diffLabel (extractChartNameFromPath config.path) env.name
                      pr.headRef) "" hm ≠ "" ∨
                  P.semanticDiff
                    (diffLabel (extractChartNameFromPath config.path) env.name
                      pr.baseRef)
                    (diffLabel (extractChartNameFromPath config.path) env.name
                      pr.headRef) "" hm ≠ "" then
                "Changes detected in " ++ extractChartNameFromPath config.path ++
                  " for environment " ++ env.name ++ "."
              else noChangesMessage } := by
  constructor
  · simp only [processChart, processChartWithBase, hb, hh]
  · intro env hvf hm hrender
    unfold processEnvironment
    rw [if_neg (fun hand => hvf hand.2)]
    unfold diffChartEnv
    simp only [Bool.false_eq_true, if_false, hrender]

/-- Witness for C4 (amended): a new chart in two environments, both renders
succeeding, both environments classified Changed against an empty base. -/
theorem c4_notfound_amended_witness :
    (portsNewChart.fetch prA.baseRef cfgTwoEnvs.path =
        FetchResult.notFound "chart not found at main" ∧
      portsNewChart.fetch prA.headRef cfgTwoEnvs.path =
        FetchResult.ok "headdir") ∧
    (processChart portsNewChart prA cfgTwoEnvs =
      cfgTwoEnvs.environments.map
        (processEnvironment portsNewChart prA
          (extractChartNameFromPath cfgTwoEnvs.path) "" "headdir" false) ∧
    ∀ env : EnvironmentConfig, env.valueFiles ≠ [] →
      ∀ hm, portsNewChart.render "headdir" env.valueFiles = Except.ok hm →
        processEnvironment portsNewChart prA
            (extractChartNameFromPath cfgTwoEnvs.path) "" "headdir" false env =
          { chartName := extractChartNameFromPath cfgTwoEnvs.path
            environment := env.name
            baseRef := prA.baseRef
            headRef := prA.headRef
            status :=
              if portsNewChart.unifiedDiff
                    (diffLabel (extractChartNameFromPath cfgTwoEnvs.path)
                      env.name prA.baseRef)
                    (diffLabel (extractChartNameFromPath cfgTwoEnvs.path)
                      env.name prA.headRef) "" hm ≠ "" ∨
                  portsNewChart.semanticDiff
                    (diffLabel (extractChartNameFromPath cfgTwoEnvs.path)
                      env.name prA.baseRef)
                    (diffLabel (extractChartNameFromPath cfgTwoEnvs.path)
                      env.name prA.headRef) "" hm ≠ "" then
                Status.changes
              else Status.success
            unifiedDiff :=
              portsNewChart.unifiedDiff
                (diffLabel (extractChartNameFromPath cfgTwoEnvs.path) env.name
                  prA.baseRef)
                (diffLabel (extractChartNameFromPath cfgTwoEnvs.path) env.name
                  prA.headRef) "" hm
            semanticDiff :=
              portsNewChart.semanticDiff
                (diffLabel (extractChartNameFromPath cfgTwoEnvs.path) env.name
                  prA.baseRef)
                (diffLabel (extractChartNameFromPath cfgTwoEnvs.path) env.name
                  prA.headRef) "" hm
            summary :=
              if portsNewChart.unifiedDiff
                    (diffLabel (extractChartNameFromPath cfgTwoEnvs.path)
                      env.name prA.baseRef)
                    (diffLabel (extractChartNameFromPath cfgTwoEnvs.path)
                      env.name prA.headRef) "" hm ≠ "" ∨
                  portsNewChart.semanticDiff
                    (diffLabel (extractChartNameFromPath cfgTwoEnvs.path)
                      env.name prA.baseRef)
                    (diffLabel (extractChartNameFromPath cfgTwoEnvs.path)
                      env.name prA.headRef) "" hm ≠ "" then
                "Changes detected in " ++
                  extractChartNameFromPath cfgTwoEnvs.path ++
                  " for environment " ++ env.name ++ "."
              else noChangesMessage }) :=
  ⟨⟨by decide, by decide⟩,
    c4_notfound_amended portsNewChart prA cfgTwoEnvs
      "chart not found at main" "headdir" (by decide) (by decide)⟩

/-! ### C2: the synthetic fallback environment -/

/-- Claim C2 (counterexample): when both sources yield no environments the
resolver's synthetic entry carries an empty message (no advisory text), and
the orchestrator does render it — here the rendered manifests differ, so the
entry is reported `StatusChanges`, not Unchanged-with-message. -/
theorem c2_counterexample :
    getChartConfig none
        (Except.ok { path := "charts/my-app", environments := [] }) "my-app" =
      Except.ok
        ({ path := "charts/my-app",
           environments :=
             [{ name := "default", valueFiles := [], message := "" }] },
         ConfigSource.defaultValues) ∧
    (processChart portsOk prA
        { path := "charts/my-app",
          environments :=
            [{ name := "default", valueFiles := [], message := "" }] }).map
      DiffResult.status = [Status.changes] :=
  ⟨rfl, by decide⟩

/-- Claim C2 (amended): when the index yields no environments and the
directory scan succeeds with none either, the resolver returns a single
environment named "default" with no value files and an empty message; the
orchestrator does not skip such an entry — it renders it with the chart's
default values and classifies it by the computed diffs.  (An environment with
a non-empty message and no value files — which this resolver never produces —
is the one rendering skips, reported `StatusSuccess` with the message as
summary.) -/
theorem c2_fallback_amended (argo : Option (Except String ChartConfig))
    (fs : Except String ChartConfig) (c : ChartConfig) (n : String)
    (hargo : ∀ cfg, argo = some (Except.ok cfg) → cfg.environments = [])
    (hfs : fs = Except.ok c) (hempty : c.environments = []) :
    getChartConfig argo fs n =
      Except.ok
        ({ path := "charts/" ++ n,
           environments :=
             [{ name := "default", valueFiles := [], message := "" }] },
         ConfigSource.defaultValues) ∧
    (∀ (P : ServicePorts) (pr : PRContext) (cn bd hd : String) (be : Bool)
        (env : EnvironmentConfig),
      env.message ≠ "" → env.valueFiles = [] →
      processEnvironment P pr cn bd hd be env =
        { chartName := cn, environment := env.name, baseRef := pr.baseRef,
          headRef := pr.headRef, status := Status.success, unifiedDiff := "",
          semanticDiff := "", summary := env.message }) := by
  constructor
  · cases argo with
    | none => simp [getChartConfig, getChartConfigFallback, hfs, hempty]
    | some r =>
      cases r with
      | error e => simp [getChartConfig, getChartConfigFallback, hfs, hempty]
      | ok cfg =>
        have hcfg := hargo cfg rfl
        simp [getChartConfig, getChartConfigFallback, hfs, hempty, hcfg]
  · intro P pr cn bd hd be env hmsg hvf
    unfold processEnvironment
    rw [if_pos ⟨hmsg, hvf⟩]

/-- Witness for C2 (amended) with no Argo adapter and an empty filesystem
scan. -/
theorem c2_fallback_amended_witness :
    ((∀ cfg : ChartConfig,
        (none : Option (Except String ChartConfig)) = some (Except.ok cfg) →
        cfg.environments = []) ∧
      (Except.ok { path := "charts/my-app", environments := [] } :
          Except String ChartConfig) =
        Except.ok { path := "charts/my-app", environments := [] } ∧
      ({ path := "charts/my-app", environments := [] } :
          ChartConfig).environments = []) ∧
    (getChartConfig none
        (Except.ok { path := "charts/my-app", environments := [] }) "my-app" =
      Except.ok
        ({ path := "charts/" ++ "my-app",
           environments :=
             [{ name := "default", valueFiles := [], message := "" }] },
         ConfigSource.defaultValues) ∧
    (∀ (P : ServicePorts) (pr : PRContext) (cn bd hd : String) (be : Bool)
        (env : EnvironmentConfig),
      env.message ≠ "" → env.valueFiles = [] →
      processEnvironment P pr cn bd hd be env =
        { chartName := cn, environment := env.name, baseRef := pr.baseRef,
          headRef := pr.headRef, status := Status.success, unifiedDiff := "",
          semanticDiff := "", summary := env.message })) :=
  ⟨⟨fun _ h => Option.noConfusion h, rfl, rfl⟩,
    c2_fallback_amended none
      (Except.ok { path := "charts/my-app", environments := [] })
      { path := "charts/my-app", environments := [] } "my-app"
      (fun _ h => Option.noConfusion h) rfl rfl⟩

/-! ### C5: resolution order -/

/-- The fallback stage never reports the Argo source. -/
theorem getChartConfigFallback_ne_argo (fs : Except String ChartConfig)
    (n : String) (c : ChartConfig) :
    getChartConfigFallback fs n ≠ Except.ok (c, ConfigSource.argo) := by
  unfold getChartConfigFallback
  split
  · simp
  · split <;> simp

/-- Claim C5: resolution tries the sources in a fixed order with first hit
winning: the Argo index result is used (source `argo`) if and only if the
adapter returned an error-free configuration with at least one environment;
in every other case — index unconfigured, index error, or empty index result —
resolution is exactly the fallback chain (filesystem scan, then synthetic
default), so an index error never fails resolution. -/
theorem c5_resolution_order (argo : Option (Except String ChartConfig))
    (fs : Except String ChartConfig) (n : String) :
    (∀ c, getChartConfig argo fs n = Except.ok (c, ConfigSource.argo) ↔
      (argo = some (Except.ok c) ∧ c.environments ≠ [])) ∧
    ((∀ c, argo = some (Except.ok c) → c.environments = []) →
      getChartConfig argo fs n = getChartConfigFallback fs n) := by
  constructor
  · intro c
    constructor
    · intro h
      cases argo with
      | none =>
        refine absurd h ?_
        simpa [getChartConfig] using getChartConfigFallback_ne_argo fs n c
      | some r =>
        cases r with
        | error e =>
          refine absurd h ?_
          simpa [getChartConfig] using getChartConfigFallback_ne_argo fs n c
        | ok cfg =>
          by_cases hlen : 0 < cfg.environments.length
          · simp only [getChartConfig, hlen, if_true] at h
            simp only [Except.ok.injEq, Prod.mk.injEq, and_true] at h
            subst h
            exact ⟨rfl, fun hnil => by simp [hnil] at hlen⟩
          · rw [show getChartConfig (some (Except.ok cfg)) fs n =
                  getChartConfigFallback fs n from by
                simp only [getChartConfig]
                rw [if_neg hlen]] at h
            exact absurd h (getChartConfigFallback_ne_argo fs n c)
    · rintro ⟨ha, hne⟩
      subst ha
      have hlen : 0 < c.environments.length := List.length_pos.mpr hne
      simp [getChartConfig, hlen]
  · intro hargo
    cases argo with
    | none => simp [getChartConfig]
    | some r =>
      cases r with
      | error e => simp [getChartConfig]
      | ok cfg =>
        have hcfg := hargo cfg rfl
        simp [getChartConfig, hcfg]

/-- Witness for C5: a populated index wins over a failing filesystem scan;
with no index configured, resolution equals the fallback chain. -/
theorem c5_resolution_order_witness :
    getChartConfig (some (Except.ok cfgTwoEnvs)) (Except.error "scan broke")
        "my-app" =
      Except.ok (cfgTwoEnvs, ConfigSource.argo) ∧
    getChartConfig none (Except.error "scan broke") "my-app" =
      getChartConfigFallback (Except.error "scan broke") "my-app" :=
  ⟨((c5_resolution_order (some (Except.ok cfgTwoEnvs))
        (Except.error "scan broke") "my-app").1 cfgTwoEnvs).mpr
      ⟨rfl, by decide⟩,
    (c5_resolution_order none (Except.error "scan broke") "my-app").2
      (fun _ h => Option.noConfusion h)⟩

/-! ### C6: folder-pattern extraction -/

/-- The two-slot pattern splits into its two slots. -/
theorem splitSlash_pattern :
    splitSlash "{chartName}/{envName}" = ["{chartName}", "{envName}"] := rfl

/-- Claim C6: with pattern `{chartName}/{envName}`, extraction maps the last
pattern-many directory components onto the slots: any path ending in
my-app/prod/app.yaml yields ("my-app", "prod"); a path whose directory has
fewer components than the pattern yields an error (extraction is a total
function, so it never panics); and a successful extraction never returns an
empty chart or environment name. -/
theorem c6_folder_extraction :
    (∀ pre : List String,
      extractFromFolderStructure "{chartName}/{envName}"
          (pre ++ ["my-app", "prod", "app.yaml"]) =
        Except.ok ("my-app", "prod")) ∧
    (∀ pathParts : List String,
      (dirParts pathParts).length < 2 →
      extractFromFolderStructure "{chartName}/{envName}" pathParts =
        Except.error "path has fewer components than pattern") ∧
    (∀ (pathParts : List String) (cn en : String),
      extractFromFolderStructure "{chartName}/{envName}" pathParts =
        Except.ok (cn, en) → cn ≠ "" ∧ en ≠ "") := by
  refine ⟨?_, ?_, ?_⟩
  · intro pre
    have hnot1 : ¬ (pre ++ ["my-app", "prod", "app.yaml"]).length ≤ 1 := by
      simp
    have hdl : (pre ++ ["my-app", "prod", "app.yaml"]).dropLast =
        pre ++ ["my-app", "prod"] := by
      rw [show pre ++ ["my-app", "prod", "app.yaml"] =
          (pre ++ ["my-app", "prod"]) ++ ["app.yaml"] by simp,
        List.dropLast_concat]
    have hparts : dirParts (pre ++ ["my-app", "prod", "app.yaml"]) =
        pre ++ ["my-app", "prod"] := by
      unfold dirParts
      rw [if_neg hnot1, hdl]
    have hnotlt : ¬ (pre ++ ["my-app", "prod"]).length <
        (["{chartName}", "{envName}"] : List String).length := by
      simp
    have hoff : (pre ++ ["my-app", "prod"]).length -
        (["{chartName}", "{envName}"] : List String).length = pre.length := by
      simp
    simp only [extractFromFolderStructure, splitSlash_pattern, hparts,
      hnotlt, if_false, hoff]
    rw [List.drop_left]
    rfl
  · intro pathParts hlt
    have hlt2 : (dirParts pathParts).length <
        (["{chartName}", "{envName}"] : List String).length := by
      simpa using hlt
    simp only [extractFromFolderStructure, splitSlash_pattern, hlt2, if_true]
  · intro pathParts cn en h
    simp only [extractFromFolderStructure, splitSlash_pattern] at h
    repeat' split at h
    all_goals simp_all

/-- Witness for C6: a concrete repository-relative path with a leading
component, a too-short path, and a successful extraction. -/
theorem c6_folder_extraction_witness :
    extractFromFolderStructure "{chartName}/{envName}"
        (["apps"] ++ ["my-app", "prod", "app.yaml"]) =
      Except.ok ("my-app", "prod") ∧
    ((dirParts ["app.yaml"]).length < 2 →
      extractFromFolderStructure "{chartName}/{envName}" ["app.yaml"] =
        Except.error "path has fewer components than pattern") ∧
    (extractFromFolderStructure "{chartName}/{envName}"
        ["my-app", "prod", "app.yaml"] = Except.ok ("my-app", "prod") →
      ("my-app" : String) ≠ "" ∧ ("prod" : String) ≠ "") :=
  ⟨c6_folder_extraction.1 ["apps"],
    fun h => c6_folder_extraction.2.1 ["app.yaml"] h,
    fun h => c6_folder_extraction.2.2 ["my-app", "prod", "app.yaml"]
      "my-app" "prod" h⟩

/-! ### C7: atomic index rebuild -/

/-- Folding one more file into the fresh map. -/
theorem buildIndex_take_succ (files : List (Option AppData)) (k : Nat)
    (h : k < files.length) :
    buildIndex (files.take (k + 1)) =
      stepEntry (buildIndex (files.take k)) (files.get ⟨k, h⟩) := by
  unfold buildIndex
  rw [List.take_succ, List.foldl_append, List.getElem?_eq_getElem h]
  simp [List.get_eq_getElem]

/-- Claim C7: the rebuild is atomic with respect to concurrent lookups.  In
every state reachable from the start of a rebuild cycle, the published index
is either the whole previous index or the whole freshly built index — never a
partially built map — and hence any `GetEnvironmentConfig` lookup performed
during the rebuild returns the lookup against one of those two complete
indexes. -/
theorem c7_rebuild_atomic (old : IndexMap) (files : List (Option AppData))
    (s : RebuildState)
    (h : Relation.ReflTransGen (RebuildStep files) ⟨old, [], 0⟩ s) :
    (s.published = old ∨ s.published = buildIndex files) ∧
    ∀ (cd n : String),
      getEnvironmentConfig cd s.published n =
          getEnvironmentConfig cd old n ∨
      getEnvironmentConfig cd s.published n =
          getEnvironmentConfig cd (buildIndex files) n := by
  have hmain : (s.published = old ∧
      s.localMap = buildIndex (files.take s.processed) ∧
      s.processed ≤ files.length) ∨
      (s.published = buildIndex files ∧ s.localMap = buildIndex files ∧
        s.processed = files.length + 1) := by
    induction h with
    | refl =>
      left
      refine ⟨rfl, ?_, by simp⟩
      simp [buildIndex]
    | tail hsteps hstep ih =>
      cases hstep with
      | scan p l k hk =>
        dsimp only at ih ⊢
        rcases ih with ⟨hp, hl, _⟩ | ⟨_, _, hproc⟩
        · left
          refine ⟨hp, ?_, hk⟩
          rw [buildIndex_take_succ files k hk, hl]
        · exact absurd hproc (by omega)
      | swap p l =>
        dsimp only at ih ⊢
        rcases ih with ⟨hp, hl, _⟩ | ⟨_, _, hproc⟩
        · right
          rw [List.take_length] at hl
          exact ⟨hl, hl, rfl⟩
        · exact absurd hproc (by omega)
  rcases hmain with ⟨hp, _, _⟩ | ⟨hp, _, _⟩
  · exact ⟨Or.inl hp, fun cd n => Or.inl (by rw [hp])⟩
  · exact ⟨Or.inr hp, fun cd n => Or.inr (by rw [hp])⟩

/-- Witness for C7: a full rebuild cycle over one indexable file, starting
from a non-empty previous index. -/
theorem c7_rebuild_atomic_witness :
    Relation.ReflTransGen (RebuildStep [some appA]) ⟨oldIx, [], 0⟩
        ⟨buildIndex [some appA], buildIndex [some appA], 2⟩ ∧
    (((⟨buildIndex [some appA], buildIndex [some appA], 2⟩ :
          RebuildState).published = oldIx ∨
      (⟨buildIndex [some appA], buildIndex [some appA], 2⟩ :
          RebuildState).published = buildIndex [some appA]) ∧
    ∀ (cd n : String),
      getEnvironmentConfig cd
          (⟨buildIndex [some appA], buildIndex [some appA], 2⟩ :
            RebuildState).published n =
          getEnvironmentConfig cd oldIx n ∨
      getEnvironmentConfig cd
          (⟨buildIndex [some appA], buildIndex [some appA], 2⟩ :
            RebuildState).published n =
          getEnvironmentConfig cd (buildIndex [some appA]) n) := by
  have htrace : Relation.ReflTransGen (RebuildStep [some appA])
      ⟨oldIx, [], 0⟩
      ⟨buildIndex [some appA], buildIndex [some appA], 2⟩ :=
    Relation.ReflTransGen.tail
      (Relation.ReflTransGen.tail Relation.ReflTransGen.refl
        (RebuildStep.scan oldIx [] 0 (by decide)))
      (RebuildStep.swap oldIx
        (stepEntry [] (([some appA] : List (Option AppData)).get
          ⟨0, by decide⟩)))
  exact ⟨htrace, c7_rebuild_atomic oldIx [some appA] _ htrace⟩

/-! ### C8: comment posting policy -/

/-- A string contains any of its own prefixes. -/
theorem strContains_append_left (s t : String) :
    strContains (s ++ t) s = true := by
  unfold strContains
  refine decide_eq_true ?_
  rw [String.data_append]
  exact ⟨[], t.data, rfl⟩

/-- The formatted PR comment starts with — and therefore contains — the
chart's marker. -/
theorem formatPRComment_contains_marker (appName appURL : String)
    (r0 : DiffResult) (rs : List DiffResult) :
    strContains (formatPRComment appName appURL (r0 :: rs))
      (commentMarker appName r0.chartName) = true := by
  unfold formatPRComment
  exact strContains_append_left _ _

/-- Filtering with a predicate after keeping only its complement yields
nothing. -/
theorem filter_not_filter {α : Type} (l : List α) (p : α → Bool) :
    (l.filter (fun a => !(p a))).filter p = [] := by
  induction l with
  | nil => rfl
  | cons a t ih => by_cases hpa : p a = true <;> simp [List.filter_cons, hpa, ih]

/-- A successful `PostComment` leaves exactly one comment carrying the
chart's marker in the store. -/
theorem postComment_marker_count (appName appURL : String)
    (store : List String) (r0 : DiffResult) (rs : List DiffResult)
    (store2 : List String)
    (h : postComment appName appURL store (r0 :: rs) = Except.ok store2) :
    (store2.filter
      (fun c => strContains c (commentMarker appName r0.chartName))).length =
      1 := by
  unfold postComment at h
  simp only [Except.ok.injEq] at h
  subst h
  rw [List.filter_append, filter_not_filter]
  simp [List.filter_cons, formatPRComment_contains_marker]

/-- `lookupAssoc` after a Go map assignment. -/
theorem lookupAssoc_updateAssoc {α : Type} (m : List (String × α))
    (k n : String) (v : α) :
    lookupAssoc (updateAssoc m k v) n =
      if k = n then some v else lookupAssoc m n := by
  induction m with
  | nil => simp [updateAssoc, lookupAssoc]
  | cons kv rest ih =>
    obtain ⟨k0, v0⟩ := kv
    by_cases hk : k0 = k
    · subst hk
      by_cases hn : k0 = n <;> simp [updateAssoc, lookupAssoc, hn]
    · by_cases hn : k0 = n
      · subst hn
        have hkn : ¬ k = k0 := fun h => hk h.symm
        simp [updateAssoc, lookupAssoc, hk, hkn]
      · simp [updateAssoc, lookupAssoc, hk, hn, ih]

/-- Key membership after a Go map assignment. -/
theorem mem_keys_updateAssoc {α : Type} (m : List (String × α))
    (k n : String) (v : α) :
    n ∈ (updateAssoc m k v).map Prod.fst ↔
      n ∈ m.map Prod.fst ∨ n = k := by
  induction m with
  | nil => simp [updateAssoc]
  | cons kv rest ih =>
    obtain ⟨k0, v0⟩ := kv
    by_cases hk : k0 = k
    · subst hk
      simp [updateAssoc]
      tauto
    · simp [updateAssoc, hk, ih]
      tauto

/-- A Go map assignment preserves key uniqueness. -/
theorem nodup_keys_updateAssoc {α : Type} (m : List (String × α))
    (k : String) (v : α) (h : (m.map Prod.fst).Nodup) :
    ((updateAssoc m k v).map Prod.fst).Nodup := by
  induction m with
  | nil => simp [updateAssoc]
  | cons kv rest ih =>
    obtain ⟨k0, v0⟩ := kv
    simp only [List.map_cons, List.nodup_cons] at h
    obtain ⟨hk0, hrest⟩ := h
    by_cases hk : k0 = k
    · subst hk
      rw [show updateAssoc ((k0, v0) :: rest) k0 v = (k0, v) :: rest from by
        unfold updateAssoc
        rw [if_pos rfl]]
      simp only [List.map_cons, List.nodup_cons]
      exact ⟨hk0, hrest⟩
    · simp only [updateAssoc, if_neg hk, List.map_cons, List.nodup_cons]
      refine ⟨?_, ih hrest⟩
      intro hmem
      rcases (mem_keys_updateAssoc rest k k0 v).mp hmem with hin | heq
      · exact hk0 hin
      · exact hk heq

/-- The chart loop preserves key uniqueness of the comment map. -/
theorem foldlCollect_nodup (resolve : ChangedChart → Option (List DiffResult)) :
    ∀ (charts : List ChangedChart) (st : ExecState),
      (st.chartResults.map Prod.fst).Nodup →
      ((List.foldl (collectStep resolve) st charts).chartResults.map
        Prod.fst).Nodup := by
  intro charts
  induction charts with
  | nil => intro st h; exact h
  | cons c t ih =>
    intro st h
    simp only [List.foldl_cons]
    apply ih
    unfold collectStep
    cases resolve c with
    | none => exact h
    | some rs => exact nodup_keys_updateAssoc _ _ _ h

/-- The comment map built by `Execute` has unique keys. -/
theorem executeCollect_nodup (resolve : ChangedChart → Option (List DiffResult))
    (charts : List ChangedChart) :
    ((executeCollect resolve charts).chartResults.map Prod.fst).Nodup := by
  unfold executeCollect
  exact foldlCollect_nodup resolve charts _ (by simp)

/-- On a unique-key map, a chart is selected for a comment exactly when its
stored results satisfy `hasChanges`. -/
theorem mem_commentCharts_core (m : List (String × List DiffResult))
    (n : String) (hnd : (m.map Prod.fst).Nodup) :
    (n ∈ (m.filter (fun p => hasChanges p.2)).map Prod.fst) ↔
      ∃ rs, lookupAssoc m n = some rs ∧ hasChanges rs = true := by
  induction m with
  | nil => simp [lookupAssoc]
  | cons kv rest ih =>
    obtain ⟨k, v⟩ := kv
    simp only [List.map_cons, List.nodup_cons] at hnd
    obtain ⟨hknotin, hndrest⟩ := hnd
    by_cases hkn : k = n
    · subst hkn
      by_cases hch : hasChanges v = true
      · simp [lookupAssoc, List.filter_cons, hch]
      · have hnot : ¬ k ∈ (rest.filter
            (fun p => hasChanges p.2)).map Prod.fst := by
          intro hmem
          exact hknotin (((List.filter_sublist rest).map Prod.fst).subset hmem)
        simp [lookupAssoc, List.filter_cons, hch, hnot]
    · have hnk : ¬ n = k := fun h => hkn h.symm
      by_cases hch : hasChanges v = true <;>
        simp [lookupAssoc, List.filter_cons, hch, hkn, hnk, ih hndrest]

/-- Claim C8: `Execute` selects a chart for a PR comment if and only if its
stored results contain a Changed or Failed outcome, and `PostComment` is an
idempotent replace: after any successful post — in particular after posting
twice for the same chart — the store holds exactly one comment bearing that
chart's marker. -/
theorem c8_comment_policy :
    (∀ (resolve : ChangedChart → Option (List DiffResult))
        (charts : List ChangedChart) (n : String),
      n ∈ commentCharts (executeCollect resolve charts) ↔
      ∃ rs, lookupAssoc (executeCollect resolve charts).chartResults n =
          some rs ∧ hasChanges rs = true) ∧
    (∀ (appName appURL : String) (store : List String) (r0 : DiffResult)
        (rs : List DiffResult) (store2 : List String),
      postComment appName appURL store (r0 :: rs) = Except.ok store2 →
      (store2.filter
        (fun c =>
          strContains c (commentMarker appName r0.chartName))).length = 1) ∧
    (∀ (appName appURL : String) (store : List String) (r0 : DiffResult)
        (rs : List DiffResult) (store2 store3 : List String),
      postComment appName appURL store (r0 :: rs) = Except.ok store2 →
      postComment appName appURL store2 (r0 :: rs) = Except.ok store3 →
      (store3.filter
        (fun c =>
          strContains c (commentMarker appName r0.chartName))).length = 1) := by
  refine ⟨?_, ?_, ?_⟩
  · intro resolve charts n
    exact mem_commentCharts_core _ n (executeCollect_nodup resolve charts)
  · intro appName appURL store r0 rs store2 h
    exact postComment_marker_count appName appURL store r0 rs store2 h
  · intro appName appURL store r0 rs store2 store3 _ h2
    exact postComment_marker_count appName appURL store2 r0 rs store3 h2

/-- Witness for C8: the comment-selection iff at a concrete run, and the
single-marker property after a concrete post. -/
theorem c8_comment_policy_witness :
    (("my-app" ∈ commentCharts (executeCollect resolveTwo [chartA, chartB]) ↔
      ∃ rs, lookupAssoc
          (executeCollect resolveTwo [chartA, chartB]).chartResults "my-app" =
          some rs ∧ hasChanges rs = true)) ∧
    (postComment "chart-val" "" [] [resStagingChanged] =
        Except.ok [formatPRComment "chart-val" "" [resStagingChanged]] ∧
      (List.filter
        (fun c =>
          strContains c (commentMarker "chart-val"
            resStagingChanged.chartName))
        [formatPRComment "chart-val" "" [resStagingChanged]]).length = 1) :=
  ⟨c8_comment_policy.1 resolveTwo [chartA, chartB] "my-app",
    ⟨rfl,
      c8_comment_policy.2.1 "chart-val" "" [] resStagingChanged [] _ rfl⟩⟩

/-! ### C10: duplicate chart names in Execute -/

/-- Lookup in the comment map after the chart loop equals the
last-successful-resolution fold. -/
theorem foldlCollect_lookup (resolve : ChangedChart → Option (List DiffResult))
    (n : String) :
    ∀ (charts : List ChangedChart) (st : ExecState),
      lookupAssoc (List.foldl (collectStep resolve) st charts).chartResults n =
        List.foldl
          (fun acc chart =>
            match resolve chart with
            | some results => if chart.name = n then some results else acc
            | none => acc)
          (lookupAssoc st.chartResults n) charts := by
  intro charts
  induction charts with
  | nil => intro st; rfl
  | cons c t ih =>
    intro st
    simp only [List.foldl_cons]
    rw [ih]
    congr 1
    unfold collectStep
    cases hres : resolve c with
    | none => rfl
    | some rs =>
      dsimp only
      rw [lookupAssoc_updateAssoc]

/-- The appended result list after the chart loop is the concatenation of all
successfully resolved charts' results. -/
theorem foldlCollect_allResults
    (resolve : ChangedChart → Option (List DiffResult)) :
    ∀ (charts : List ChangedChart) (st : ExecState),
      (List.foldl (collectStep resolve) st charts).allResults =
        st.allResults ++ (charts.filterMap resolve).flatten := by
  intro charts
  induction charts with
  | nil => intro st; simp
  | cons c t ih =>
    intro st
    simp only [List.foldl_cons, List.filterMap_cons]
    cases hres : resolve c with
    | none =>
      rw [ih]
      simp [collectStep, hres]
    | some rs =>
      rw [ih]
      simp [collectStep, hres, List.append_assoc]

/-- Claim C10: `Execute` keys its per-chart comment grouping by chart name,
so the stored results for a name are those of the last successfully resolved
entry with that name (two same-named entries: the later wins), while the
check-run aggregation list contains every entry's results appended in
order (both entries included). -/
theorem c10_duplicate_charts :
    (∀ (resolve : ChangedChart → Option (List DiffResult))
        (charts : List ChangedChart) (n : String),
      lookupAssoc (executeCollect resolve charts).chartResults n =
        lastResolved resolve charts n) ∧
    (∀ (resolve : ChangedChart → Option (List DiffResult))
        (charts : List ChangedChart),
      (executeCollect resolve charts).allResults =
        (charts.filterMap resolve).flatten) ∧
    (∀ (resolve : ChangedChart → Option (List DiffResult))
        (c1 c2 : ChangedChart) (rs1 rs2 : List DiffResult),
      c1.name = c2.name → resolve c1 = some rs1 → resolve c2 = some rs2 →
      lookupAssoc (executeCollect resolve [c1, c2]).chartResults c2.name =
          some rs2 ∧
      (executeCollect resolve [c1, c2]).allResults = rs1 ++ rs2) := by
  refine ⟨?_, ?_, ?_⟩
  · intro resolve charts n
    unfold executeCollect lastResolved
    rw [foldlCollect_lookup]
    rfl
  · intro resolve charts
    unfold executeCollect
    rw [foldlCollect_allResults]
    rfl
  · intro resolve c1 c2 rs1 rs2 hname h1 h2
    constructor
    · simp [executeCollect, collectStep, h1, h2, hname,
        lookupAssoc_updateAssoc]
    · simp [executeCollect, collectStep, h1, h2]

/-- Witness for C10: two entries both named my-app; the comment map holds the
later entry's results while the check-run list holds both. -/
theorem c10_duplicate_charts_witness :
    ((chartA.name = chartA.name ∧
      resolveTwo chartA = some [resStagingChanged])) ∧
    (lookupAssoc
        (executeCollect resolveTwo [chartA, chartA]).chartResults
        chartA.name = some [resStagingChanged] ∧
      (executeCollect resolveTwo [chartA, chartA]).allResults =
        [resStagingChanged] ++ [resStagingChanged]) :=
  ⟨⟨rfl, by decide⟩,
    c10_duplicate_charts.2.2 resolveTwo chartA chartA
      [resStagingChanged] [resStagingChanged] rfl (by decide) (by decide)⟩

/-! ### C9: webhook response classification -/

/-- Claim C9: the endpoint's response status is determined by classifying the
request in order: a signature that does not verify against the raw body —
including a tampered body under an unmodified signature header — is rejected
with 401; a verifying but unparseable payload gets 400; a recognized
non-pull-request event, or a pull-request action outside
opened/synchronize/reopened, gets 200 and is dropped; an accepted event gets
202. -/
theorem c9_webhook_classification (secret : String)
    (hmacSig : String → String → String)
    (parseWebHook : String → String → Except String ParsedEvent)
    (eventType body body2 signature : String) :
    (signature ≠ hmacSig secret body →
      serveHTTP secret hmacSig parseWebHook eventType body signature = 401) ∧
    (signature = hmacSig secret body → body2 ≠ body →
      hmacSig secret body2 ≠ hmacSig secret body →
      serveHTTP secret hmacSig parseWebHook eventType body2 signature =
        401) ∧
    (signature = hmacSig secret body →
      ∀ e, parseWebHook eventType body = Except.error e →
      serveHTTP secret hmacSig parseWebHook eventType body signature = 400) ∧
    (signature = hmacSig secret body →
      ∀ name2, parseWebHook eventType body =
          Except.ok (ParsedEvent.otherEvent name2) →
      serveHTTP secret hmacSig parseWebHook eventType body signature = 200) ∧
    (signature = hmacSig secret body →
      ∀ action pr2, parseWebHook eventType body =
          Except.ok (ParsedEvent.pullRequest action pr2) →
      action ≠ "opened" → action ≠ "synchronize" → action ≠ "reopened" →
      serveHTTP secret hmacSig parseWebHook eventType body signature = 200) ∧
    (signature = hmacSig secret body →
      ∀ action pr2, parseWebHook eventType body =
          Except.ok (ParsedEvent.pullRequest action pr2) →
      (action = "opened" ∨ action = "synchronize" ∨ action = "reopened") →
      serveHTTP secret hmacSig parseWebHook eventType body signature =
        202) := by
  refine ⟨?_, ?_, ?_, ?_, ?_, ?_⟩
  · intro hsig
    unfold serveHTTP
    rw [if_neg hsig]
  · intro hsig hbody hh
    unfold serveHTTP
    have hcond : ¬ signature = hmacSig secret body2 := by
      rw [hsig]
      exact fun hEq => hh hEq.symm
    rw [if_neg hcond]
  · intro hsig e hparse
    unfold serveHTTP
    rw [if_pos hsig, hparse]
  · intro hsig name2 hparse
    unfold serveHTTP
    rw [if_pos hsig, hparse]
  · intro hsig action pr2 hparse h1 h2 h3
    unfold serveHTTP
    rw [if_pos hsig, hparse]
    simp [h1, h2, h3]
  · intro hsig action pr2 hparse hact
    unfold serveHTTP
    rw [if_pos hsig, hparse]
    simp [hact]

/-- Witness for C9: one request per response class, against concrete HMAC and
parser stand-ins. -/
theorem c9_webhook_classification_witness :
    serveHTTP secretC hmacC parseC "pull_request" "opened" "wrong" = 401 ∧
    serveHTTP secretC hmacC parseC "pull_request" "tampered"
      (hmacC secretC "opened") = 401 ∧
    serveHTTP secretC hmacC parseC "pull_request" "bad"
      (hmacC secretC "bad") = 400 ∧
    serveHTTP secretC hmacC parseC "push" "opened"
      (hmacC secretC "opened") = 200 ∧
    serveHTTP secretC hmacC parseC "pull_request" "closed"
      (hmacC secretC "closed") = 200 ∧
    serveHTTP secretC hmacC parseC "pull_request" "opened"
      (hmacC secretC "opened") = 202 :=
  ⟨(c9_webhook_classification secretC hmacC parseC "pull_request" "opened"
      "opened" "wrong").1 (by decide),
    (c9_webhook_classification secretC hmacC parseC "pull_request" "opened"
      "tampered" (hmacC secretC "opened")).2.1 rfl (by decide) (by decide),
    (c9_webhook_classification secretC hmacC parseC "pull_request" "bad"
      "bad" (hmacC secretC "bad")).2.2.1 rfl "unparseable" rfl,
    (c9_webhook_classification secretC hmacC parseC "push" "opened"
      "opened" (hmacC secretC "opened")).2.2.2.1 rfl "push" rfl,
    (c9_webhook_classification secretC hmacC parseC "pull_request" "closed"
      "closed" (hmacC secretC "closed")).2.2.2.2.1 rfl "closed" prA rfl
      (by decide) (by decide) (by decide),
    (c9_webhook_classification secretC hmacC parseC "pull_request" "opened"
      "opened" (hmacC secretC "opened")).2.2.2.2.2 rfl "opened" prA rfl
      (Or.inl rfl)⟩

end ChartVal
